import Mathlib

/-!
# SaveCoTestePerfil — verification of the natural-language specification

Shallow embedding of the behavioral-assessment web application:
* the defensive JSON payload handling of the results viewer
  (`safeParseJSON`, `calculateChartData`),
* the candidate questionnaire runner (`loadSession`, answer handlers,
  `canProceed`, `submitTest` with its one-shot latch),
* the admin candidate-edit operation and the profile-store operations.

JavaScript dynamic values are modelled by the inductive `JVal`; the host
`JSON.parse` / `JSON.stringify` builtins (external to the repository) are
modelled by an executable recursive-descent parser `jsonParse` and an
encoder `jsonStringify` over `JVal`.  JS numbers are modelled as `Int`
(every numeric literal handled by this application — scale values 1–5,
option weights "0"–"10", percentage scores — is integral).
-/

/-- A JavaScript/JSON value.  `str` doubles as the type of raw (possibly
JSON-encoded) payload text, which is what `safeParseJSON` unwraps. -/
inductive JVal where
  | null
  | bool (b : Bool)
  | num (n : Int)
  | str (s : String)
  | arr (elems : List JVal)
  | obj (fields : List (String × JVal))
deriving Repr

namespace JsonModel

/-- JSON insignificant whitespace. -/
def blank (c : Char) : Bool := c = ' ' || c = '\t' || c = '\n' || c = '\r'

/-- Drop leading JSON whitespace. -/
def dropBlank : List Char → List Char
  | [] => []
  | c :: cs => if blank c then dropBlank cs else c :: cs

/-- Value of a hexadecimal digit character, if it is one (codepoint
arithmetic: `0`–`9` are 48–57, `a`–`f` are 97–102, `A`–`F` are 65–70). -/
def hexDigitVal (c : Char) : Option Nat :=
  let n := c.toNat
  if 48 ≤ n ∧ n ≤ 57 then some (n - 48)
  else if 97 ≤ n ∧ n ≤ 102 then some (n - 87)
  else if 65 ≤ n ∧ n ≤ 70 then some (n - 55)
  else none

/-- The character named by a single-letter JSON escape. -/
def namedEscape (e : Char) : Option Char :=
  if e = '"' then some '"'
  else if e = '\\' then some '\\'
  else if e = '/' then some '/'
  else if e = 'n' then some '\n'
  else if e = 't' then some '\t'
  else if e = 'r' then some '\r'
  else if e = 'b' then some (Char.ofNat 8)
  else if e = 'f' then some (Char.ofNat 12)
  else none

/-- Decode the body of a JSON string literal (everything after the opening
quote), returning the decoded characters together with the input remaining
after the closing quote.  Structural on the input list. -/
def strBody : List Char → Option (List Char × List Char)
  | [] => none
  | '"' :: rest => some ([], rest)
  | '\\' :: 'u' :: h1 :: h2 :: h3 :: h4 :: rest =>
    match hexDigitVal h1, hexDigitVal h2, hexDigitVal h3, hexDigitVal h4, strBody rest with
    | some a, some b, some c, some d, some (s, r) =>
      some (Char.ofNat (((a * 16 + b) * 16 + c) * 16 + d) :: s, r)
    | _, _, _, _, _ => none
  | '\\' :: e :: rest =>
    match namedEscape e, strBody rest with
    | some c, some (s, r) => some (c :: s, r)
    | _, _ => none
  | c :: rest =>
    match strBody rest with
    | some (s, r) => some (c :: s, r)
    | none => none

/-- A decimal digit (codepoints 48–57). -/
def digit (c : Char) : Bool := 48 ≤ c.toNat && c.toNat ≤ 57

/-- Split a leading run of decimal digits off the input. -/
def digitSpan : List Char → List Char × List Char
  | [] => ([], [])
  | c :: cs => if digit c then (fun p => (c :: p.1, p.2)) (digitSpan cs) else ([], c :: cs)

/-- Numeric value of a digit run. -/
def digitsVal (ds : List Char) : Nat :=
  ds.foldl (fun acc d => 10 * acc + (d.toNat - 48)) 0

/-- Parse a JSON integer numeral (optional minus sign, then digits). -/
def intNumeral (l : List Char) : Option (Int × List Char) :=
  match l with
  | '-' :: rest =>
    (fun p => if p.1.isEmpty then none else some (-(digitsVal p.1 : Int), p.2)) (digitSpan rest)
  | _ =>
    (fun p => if p.1.isEmpty then none else some ((digitsVal p.1 : Int), p.2)) (digitSpan l)

mutual

/-- Parse one JSON value.  `fuel` only bounds the nesting recursion; the
top-level entry point supplies enough for any input (see `jsonParse`). -/
def valueP : Nat → List Char → Option (JVal × List Char)
  | 0, _ => none
  | Nat.succ fuel, l =>
    match dropBlank l with
    | [] => none
    | c :: rest =>
      if c = '"' then
        match strBody rest with
        | some (s, r) => some (.str (String.mk s), r)
        | none => none
      else if c = 'n' then
        match rest with
        | 'u' :: 'l' :: 'l' :: r => some (.null, r)
        | _ => none
      else if c = 't' then
        match rest with
        | 'r' :: 'u' :: 'e' :: r => some (.bool true, r)
        | _ => none
      else if c = 'f' then
        match rest with
        | 'a' :: 'l' :: 's' :: 'e' :: r => some (.bool false, r)
        | _ => none
      else if c = '[' then
        match itemsP fuel rest with
        | some (es, r) => some (.arr es, r)
        | none => none
      else if c = '{' then
        match fieldsP fuel rest with
        | some (fs, r) => some (.obj fs, r)
        | none => none
      else if c = '-' || digit c then
        match intNumeral (c :: rest) with
        | some (n, r) => some (.num n, r)
        | none => none
      else none

/-- Parse the items of an array after the opening bracket. -/
def itemsP : Nat → List Char → Option (List JVal × List Char)
  | 0, _ => none
  | Nat.succ fuel, l =>
    match dropBlank l with
    | ']' :: rest => some ([], rest)
    | l' =>
      match valueP fuel l' with
      | some (v, r) =>
        match moreItemsP fuel r with
        | some (vs, r2) => some (v :: vs, r2)
        | none => none
      | none => none

/-- Parse `, value` repetitions until the closing bracket. -/
def moreItemsP : Nat → List Char → Option (List JVal × List Char)
  | 0, _ => none
  | Nat.succ fuel, l =>
    match dropBlank l with
    | ']' :: rest => some ([], rest)
    | ',' :: rest =>
      match valueP fuel rest with
      | some (v, r) =>
        match moreItemsP fuel r with
        | some (vs, r2) => some (v :: vs, r2)
        | none => none
      | none => none
    | _ => none

/-- Parse the members of an object after the opening brace. -/
def fieldsP : Nat → List Char → Option (List (String × JVal) × List Char)
  | 0, _ => none
  | Nat.succ fuel, l =>
    match dropBlank l with
    | '}' :: rest => some ([], rest)
    | '"' :: rest =>
      match fieldP fuel rest with
      | some (kv, r) =>
        match moreFieldsP fuel r with
        | some (fs, r2) => some (kv :: fs, r2)
        | none => none
      | none => none
    | _ => none

/-- Parse `, "key": value` repetitions until the closing brace. -/
def moreFieldsP : Nat → List Char → Option (List (String × JVal) × List Char)
  | 0, _ => none
  | Nat.succ fuel, l =>
    match dropBlank l with
    | '}' :: rest => some ([], rest)
    | ',' :: rest =>
      match dropBlank rest with
      | '"' :: rest2 =>
        match fieldP fuel rest2 with
        | some (kv, r) =>
          match moreFieldsP fuel r with
          | some (fs, r2) => some (kv :: fs, r2)
          | none => none
        | none => none
      | _ => none
    | _ => none

/-- Parse one `key": value` member, the opening quote already consumed. -/
def fieldP : Nat → List Char → Option ((String × JVal) × List Char)
  | 0, _ => none
  | Nat.succ fuel, l =>
    match strBody l with
    | some (k, r) =>
      match dropBlank r with
      | ':' :: r2 =>
        match valueP fuel r2 with
        | some (v, r3) => some ((String.mk k, v), r3)
        | none => none
      | _ => none
    | none => none

end

/-- Model of the host `JSON.parse`: `none` models a thrown `SyntaxError`. -/
def jsonParse (s : String) : Option JVal :=
  match valueP (s.length + 1) s.data with
  | some (v, r) => if dropBlank r = [] then some v else none
  | none => none

/-- The hexadecimal digit character for `n < 16` (lower case). -/
def hexChar (n : Nat) : Char :=
  Char.ofNat (if n < 10 then 48 + n else 87 + n)

/-- JSON-escape one character: quote, backslash and the common control
characters get their two-character escapes, the remaining control
characters a `\u00XX` escape, everything else stands for itself. -/
def escChar (c : Char) : List Char :=
  if c = '"' then ['\\', '"']
  else if c = '\\' then ['\\', '\\']
  else if c = '\n' then ['\\', 'n']
  else if c = '\t' then ['\\', 't']
  else if c = '\r' then ['\\', 'r']
  else if c.toNat < 32 then ['\\', 'u', '0', '0', hexChar (c.toNat / 16), hexChar (c.toNat % 16)]
  else [c]

/-- Escape a string body and close it with the terminating quote. -/
def escBody : List Char → List Char
  | [] => ['"']
  | c :: cs => escChar c ++ escBody cs

/-- A complete JSON string literal for `s`. -/
def strLit (s : String) : List Char := '"' :: escBody s.data

mutual

/-- Encode a value as JSON text (character list). -/
def encVal : JVal → List Char
  | .null => "null".data
  | .bool true => "true".data
  | .bool false => "false".data
  | .num n => (toString n).data
  | .str s => strLit s
  | .arr es => '[' :: encItems es ++ [']']
  | .obj fs => '{' :: encFields fs ++ ['}']

/-- Encode array items, comma separated. -/
def encItems : List JVal → List Char
  | [] => []
  | [v] => encVal v
  | v :: vs => encVal v ++ ',' :: encItems vs

/-- Encode object members, comma separated. -/
def encFields : List (String × JVal) → List Char
  | [] => []
  | [(k, v)] => strLit k ++ ':' :: encVal v
  | (k, v) :: fs => strLit k ++ ':' :: encVal v ++ ',' :: encFields fs

end

/-- Model of the host `JSON.stringify` on a JSON-representable value. -/
def jsonStringify (v : JVal) : String := String.mk (encVal v)

/-! ### Parser facts

`strBody_length` is the well-foundedness fact behind `safeParseJSON`:
decoding a string literal always consumes strictly more input than the
characters it produces (quotes and escape markers are overhead).
`strBody_escBody` is the string-literal codec round-trip. -/

theorem strBody_length : ∀ (l s r : List Char),
    strBody l = some (s, r) → s.length + r.length < l.length := by
  intro l
  induction l using strBody.induct <;> intro s r h <;> simp_all [strBody] <;>
    obtain ⟨rfl, rfl⟩ := h <;> simp <;> omega

theorem dropBlank_length_le (l : List Char) : (dropBlank l).length ≤ l.length := by
  induction l with
  | nil => simp [dropBlank]
  | cons c cs ih =>
    by_cases h : blank c <;> simp [dropBlank, h]
    omega

/-- `hexDigitVal` inverts `hexChar` on digit values. -/
theorem hexDigitVal_hexChar : ∀ d : Nat, d < 16 → hexDigitVal (hexChar d) = some d := by
  decide

/-- Decoding one escaped character undoes `escChar`. -/
theorem strBody_escChar (c : Char) (tail : List Char) :
    strBody (escChar c ++ tail) =
      match strBody tail with
      | some (s, r) => some (c :: s, r)
      | none => none := by
  by_cases hq : c = '"'
  · subst hq
    cases hsb : strBody tail with
    | none => simp [escChar, strBody, namedEscape, hsb]
    | some pr => cases pr; simp [escChar, strBody, namedEscape, hsb]
  by_cases hb : c = '\\'
  · subst hb
    cases hsb : strBody tail with
    | none => simp [escChar, strBody, namedEscape, hsb]
    | some pr => cases pr; simp [escChar, strBody, namedEscape, hsb]
  by_cases hn : c = '\n'
  · subst hn
    cases hsb : strBody tail with
    | none => simp [escChar, strBody, namedEscape, hsb]
    | some pr => cases pr; simp [escChar, strBody, namedEscape, hsb]
  by_cases ht : c = '\t'
  · subst ht
    cases hsb : strBody tail with
    | none => simp [escChar, strBody, namedEscape, hsb]
    | some pr => cases pr; simp [escChar, strBody, namedEscape, hsb]
  by_cases hr : c = '\r'
  · subst hr
    cases hsb : strBody tail with
    | none => simp [escChar, strBody, namedEscape, hsb]
    | some pr => cases pr; simp [escChar, strBody, namedEscape, hsb]
  by_cases hc : c.toNat < 32
  · have h1 : c.toNat / 16 < 16 := by omega
    have h2 : c.toNat % 16 < 16 := Nat.mod_lt _ (by omega)
    have hz : hexDigitVal '0' = some 0 := rfl
    have harith : ((0 * 16 + 0) * 16 + c.toNat / 16) * 16 + c.toNat % 16 = c.toNat := by omega
    cases hsb : strBody tail with
    | none =>
      simp [escChar, if_neg hq, if_neg hb, if_neg hn, if_neg ht, if_neg hr, if_pos hc,
        strBody, hz, hexDigitVal_hexChar _ h1, hexDigitVal_hexChar _ h2, hsb]
    | some pr =>
      cases pr
      simp [escChar, if_neg hq, if_neg hb, if_neg hn, if_neg ht, if_neg hr, if_pos hc,
        strBody, hz, hexDigitVal_hexChar _ h1, hexDigitVal_hexChar _ h2, hsb,
        harith, Char.ofNat_toNat]
      rw [show c.toNat / 16 * 16 + c.toNat % 16 = c.toNat from by omega, Char.ofNat_toNat]
  · simp only [escChar, if_neg hq, if_neg hb, if_neg hn, if_neg ht, if_neg hr, if_neg hc,
      List.singleton_append]
    rw [strBody.eq_def]
    split
    · simp_all
    · simp_all
    · rename_i heq; rw [List.cons_eq_cons] at heq; exact absurd heq.1 hb
    · rename_i heq; rw [List.cons_eq_cons] at heq; exact absurd heq.1 hb
    · rename_i heq; rw [List.cons_eq_cons] at heq
      obtain ⟨rfl, rfl⟩ := heq
      rfl

/-- Decoding an escaped string body recovers the original characters. -/
theorem strBody_escBody (l : List Char) : ∀ rest, strBody (escBody l ++ rest) = some (l, rest) := by
  induction l with
  | nil => intro rest; simp [escBody, strBody]
  | cons c cs ih =>
    intro rest
    simp only [escBody, List.append_assoc]
    rw [strBody_escChar, ih]

theorem string_eta (s : String) : String.mk s.data = s := by
  cases s
  rfl

/-- Parsing an encoded string literal yields exactly that string. -/
theorem jsonParse_strLit (s : String) : jsonParse (String.mk (strLit s)) = some (.str s) := by
  have hsb : strBody (escBody s.data) = some (s.data, []) := by
    have h := strBody_escBody s.data []
    simpa using h
  simp [jsonParse, strLit, valueP, dropBlank, blank, hsb, string_eta]

/-- A parsed string can only come from a string literal. -/
theorem valueP_str : ∀ (fuel : Nat) (l : List Char) (t : String) (r : List Char),
    valueP fuel l = some (.str t, r) →
    ∃ cs, dropBlank l = '"' :: cs ∧ strBody cs = some (t.data, r) := by
  intro fuel l t r h
  match fuel with
  | 0 => simp [valueP] at h
  | Nat.succ fuel =>
    simp only [valueP] at h
    split at h
    · exact absurd h (by simp)
    · rename_i c rest heq
      by_cases hc : c = '"'
      · subst hc
        rw [if_pos rfl] at h
        cases hsb : strBody rest with
        | none => rw [hsb] at h; exact absurd h (by simp)
        | some pr =>
          obtain ⟨s, r2⟩ := pr
          rw [hsb] at h
          simp only [Option.some.injEq, Prod.mk.injEq, JVal.str.injEq] at h
          obtain ⟨h1, h2⟩ := h
          subst h2
          refine ⟨rest, heq, ?_⟩
          rw [← h1]
          exact hsb
      · rw [if_neg hc] at h
        repeat' split at h
        all_goals simp_all

/-- The key well-foundedness fact: successfully parsing a string that encodes
another *string* always strictly shrinks it. -/
theorem jsonParse_str_length (s t : String) (h : jsonParse s = some (.str t)) :
    t.length < s.length := by
  simp only [jsonParse] at h
  split at h
  · rename_i v r hv
    split at h
    · rename_i hdb
      obtain rfl : v = .str t := by simpa using h
      obtain ⟨cs, hcs, hsb⟩ := valueP_str _ _ _ _ hv
      have h1 := strBody_length cs t.data r hsb
      have h2 := dropBlank_length_le s.data
      have h3 : (dropBlank s.data).length = cs.length + 1 := by rw [hcs]; simp
      have h4 : t.length = t.data.length := rfl
      have h5 : s.length = s.data.length := rfl
      omega
    · exact absurd h (by simp)
  · exact absurd h (by simp)

end JsonModel

open JsonModel

/-- Model of `safeParseJSON` (results viewer): a non-null JS object (or
array — `typeof` calls those objects too) is returned as-is; a string goes
through `JSON.parse`, recursing while the parse still yields a string
(double-stringified payloads); a parse failure yields the empty object.
The remaining primitives hit `JSON.parse(String(x))`, which returns the
value itself.  Termination: `jsonParse_str_length`. -/
def safeParseJSON : JVal → JVal
  | .obj fs => .obj fs
  | .arr es => .arr es
  | .null => .null
  | .bool b => .bool b
  | .num n => .num n
  | .str s =>
    match hj : jsonParse s with
    | some (.str t) => safeParseJSON (.str t)
    | some (.obj fs) => .obj fs
    | some (.arr es) => .arr es
    | some .null => .null
    | some (.bool b) => .bool b
    | some (.num n) => .num n
    | none => .obj []
termination_by v => match v with | .str s => s.length + 1 | _ => 0
decreasing_by
  simp_wf
  have := jsonParse_str_length s t hj
  omega

/-- Unfolding: a string whose parse fails becomes the empty object. -/
theorem safeParseJSON_parse_fail {s : String} (h : jsonParse s = none) :
    safeParseJSON (.str s) = .obj [] := by
  rw [safeParseJSON, h]

/-- Unfolding: a string whose parse yields another string recurses on it. -/
theorem safeParseJSON_parse_str {s t : String} (h : jsonParse s = some (.str t)) :
    safeParseJSON (.str s) = safeParseJSON (.str t) := by
  rw [safeParseJSON, h]

/-- Unfolding: a string whose parse yields a non-string value returns it. -/
theorem safeParseJSON_parse_other {s : String} {v : JVal} (h : jsonParse s = some v)
    (hv : ∀ t, v ≠ .str t) : safeParseJSON (.str s) = v := by
  rw [safeParseJSON, h]
  cases v <;> simp_all

/-- Is this value a JS string? -/
def isStr : JVal → Bool
  | .str _ => true
  | _ => false

/-- `safeParseJSON` never returns a string: every recursion exit is a parsed
non-string value, the object/array input itself, a primitive, or `{}`. -/
theorem safeParseJSON_isStr_false : ∀ v : JVal, isStr (safeParseJSON v) = false := by
  intro v
  induction v using safeParseJSON.induct with
  | case1 fs => rw [safeParseJSON]; rfl
  | case2 es => rw [safeParseJSON]; rfl
  | case3 => rw [safeParseJSON]; rfl
  | case4 b => rw [safeParseJSON]; rfl
  | case5 n => rw [safeParseJSON]; rfl
  | case6 s t hj ih => rw [safeParseJSON_parse_str hj]; exact ih
  | case7 s fs hj => rw [safeParseJSON_parse_other hj (by intro t h; cases h)]; rfl
  | case8 s es hj => rw [safeParseJSON_parse_other hj (by intro t h; cases h)]; rfl
  | case9 s hj => rw [safeParseJSON_parse_other hj (by intro t h; cases h)]; rfl
  | case10 s b hj => rw [safeParseJSON_parse_other hj (by intro t h; cases h)]; rfl
  | case11 s n hj => rw [safeParseJSON_parse_other hj (by intro t h; cases h)]; rfl
  | case12 s hj => rw [safeParseJSON_parse_fail hj]; rfl

/-- `n`-fold string encoding of a value: `encTower 0 v` is `JSON.stringify(v)`,
and each further level stringifies the previous level's text. -/
def encTower : Nat → JVal → String
  | 0, v => jsonStringify v
  | n + 1, v => jsonStringify (.str (encTower n v))

/-- Parsing the stringification of a string literal recovers it (lifted form
of `jsonParse_strLit` through `jsonStringify`). -/
theorem jsonParse_stringify_str (s : String) :
    jsonParse (jsonStringify (.str s)) = some (.str s) := by
  have h : jsonStringify (.str s) = String.mk (strLit s) := rfl
  rw [h]
  exact jsonParse_strLit s

/-! ## Results viewer: chart derivation (`calculateChartData`)

JS dynamic idioms are modelled explicitly: `Option JVal` is a
possibly-`undefined` value, `jsTruthy`/`jsFalsy` are JS truthiness,
`jsLookup` is property access, `jsChain` is optional chaining, `jsEntries`
is `Object.entries`.  JS `parseInt` is modelled by `jsParseIntOfVal`
(`none` models `NaN`), and running sums that may become `NaN` are
`Option Int`. -/

/-- JS falsiness of a defined value. -/
def jsFalsy : JVal → Bool
  | .null => true
  | .bool b => !b
  | .num n => n = 0
  | .str s => s = ""
  | .arr _ => false
  | .obj _ => false

/-- Property access `v[k]`; `none` models `undefined`. -/
def jsLookup (v : JVal) (k : String) : Option JVal :=
  match v with
  | .obj fs => (fs.find? (fun p => p.1 = k)).map (fun p => p.2)
  | _ => none

/-- Truthiness of a possibly-undefined value. -/
def jsTruthy : Option JVal → Bool
  | none => false
  | some v => !jsFalsy v

/-- Optional chaining `o?.k`. -/
def jsChain (o : Option JVal) (k : String) : Option JVal :=
  match o with
  | some v => jsLookup v k
  | none => none

/-- `Object.entries` (objects: the members; arrays and strings: indexed
entries; other primitives: empty). -/
def jsEntries : JVal → List (String × JVal)
  | .obj fs => fs
  | .arr es => es.enum.map (fun p => (toString p.1, p.2))
  | .str s => s.data.enum.map (fun p => (toString p.1, JVal.str (String.mk [p.2])))
  | _ => []

/-- Coercion of a value to a JS object key (only primitives occur here). -/
def jsKeyString : JVal → String
  | .str s => s
  | .num n => toString n
  | .bool b => if b then "true" else "false"
  | .null => "null"
  | _ => ""

/-- Model of `parseInt(x, 10)` as the viewer uses it: leading decimal
digits with an optional minus sign; `none` models `NaN`.  On non-string
non-number primitives `parseInt` is `NaN`. -/
def jsParseIntOfVal : JVal → Option Int
  | .str s =>
    (match s.data with
     | '-' :: rest =>
       (fun p => if p.1.isEmpty then none else some (-(JsonModel.digitsVal p.1 : Int)))
         (JsonModel.digitSpan rest)
     | l =>
       (fun p => if p.1.isEmpty then none else some ((JsonModel.digitsVal p.1 : Int)))
         (JsonModel.digitSpan l))
  | .num n => some n
  | _ => none

/-- `q.type === tag` (strict string comparison). -/
def isTypeTag (q : JVal) (tag : String) : Bool :=
  match jsLookup q "type" with
  | some (.str s) => s = tag
  | _ => false

/-- `NaN`-propagating addition on running totals. -/
def addNan : Option Int → Option Int → Option Int
  | some a, some b => some (a + b)
  | _, _ => none

/-- Accumulate one scale answer into `categoryScores` (JS object semantics:
first-insertion order, in-place update of an existing key). -/
def addScore (scores : List (String × Option Int × Nat)) (cat : String) (v : Option Int) :
    List (String × Option Int × Nat) :=
  if scores.any (fun p => p.1 = cat) then
    scores.map (fun p => if p.1 = cat then (p.1, addNan p.2.1 v, p.2.2 + 1) else p)
  else scores ++ [(cat, v, 1)]

/-- Tally one profile tag into `profileCounts`. -/
def addCount (counts : List (String × Nat)) (tag : String) : List (String × Nat) :=
  if counts.any (fun p => p.1 = tag) then
    counts.map (fun p => if p.1 = tag then (p.1, p.2 + 1) else p)
  else counts ++ [(tag, 1)]

/-- One step of the `questions.forEach` aggregation loop of
`calculateChartData` (Scenario B): scale answers feed `categoryScores`,
non-numeric choice values (including the `most` pick) feed `profileCounts`. -/
def scanQuestion (st : List (String × Option Int × Nat) × List (String × Nat)) (q : JVal) :
    List (String × Option Int × Nat) × List (String × Nat) :=
  let resposta := jsLookup q "resposta"
  let respostaV := jsChain resposta "value"
  let scores :=
    if jsTruthy (jsLookup q "category") && isTypeTag q "scale" && jsTruthy respostaV then
      addScore st.1 (jsKeyString ((jsLookup q "category").getD .null))
        (jsParseIntOfVal (respostaV.getD .null))
    else st.1
  let counts :=
    if isTypeTag q "choice" && jsTruthy resposta then
      let c1 :=
        if jsTruthy respostaV && (jsParseIntOfVal (respostaV.getD .null)).isNone then
          addCount st.2 (jsKeyString (respostaV.getD .null))
        else st.2
      let mostV := jsChain (jsChain resposta "most") "value"
      if jsTruthy mostV && (jsParseIntOfVal (mostV.getD .null)).isNone then
        addCount c1 (jsKeyString (mostV.getD .null))
      else c1
    else st.2
  (scores, counts)

/-- `(total / count).toFixed(1)` on the exact rational value (the app's
totals are sums of nonnegative scale values; float tie-breaking of the JS
`toFixed` is not modelled).  `none` (`NaN`) renders as "NaN". -/
def toFixed1 : Option Int → Nat → String
  | none, _ => "NaN"
  | some total, count =>
    let scaled := (total.toNat * 10 * 2 + count) / (2 * count)
    toString (scaled / 10) ++ "." ++ toString (scaled % 10)

/-- `cat.substring(0, 20) + '...'` truncation of long category names. -/
def truncate20 (s : String) : String :=
  if s.length > 20 then String.mk (s.data.take 20) ++ "..." else s

/-- `key.replace(/_/g, ' ')`. -/
def underscoreToSpace (s : String) : String :=
  String.mk (s.data.map (fun c => if c = '_' then ' ' else c))

/-- The four fixed competency sections aggregated for the AI-data radar. -/
def personalitySections : List String :=
  ["caracteirsta-de-personalidade-comunicacao",
   "caracteirsta-de-personalidade-organizacao",
   "caracteirsta-de-personalidade-lideranca",
   "caracteirsta-de-personalidade-analitico"]

/-- A `result_test` row as the viewer holds it after `fetchResults` has run
the payload through `safeParseJSON`. -/
structure ResultRow where
  id : String
  created_at : String
  test_id : String
  candidate_id : String
  result : JVal

/-- The derived chart series (rows are JS object literals, kept as `JVal`). -/
structure ChartData where
  radarData : List JVal
  barData : List JVal
  isAiData : Bool

/-- Model of `calculateChartData`: branch on the payload shape — AI-processed
sections (Scenario A) build the radar from the four competency sections and
the bars from `metadados_calculo.escala_0_100`; otherwise (Scenario B) raw
answers are aggregated per category / per profile tag.  A truthy non-array
`body` would make JS `forEach` throw; that shape is outside the modelled
space and mapped to the empty list. -/
def calculateChartData (row : ResultRow) : ChartData :=
  let data := if jsFalsy row.result then JVal.obj [] else row.result
  if jsTruthy (jsLookup data "caracteirsta-de-personalidade-lideranca") ||
     jsTruthy (jsLookup data "metadados_calculo") then
    let radarData := personalitySections.foldl (fun acc secKey =>
      match jsLookup data secKey with
      | some sec =>
        if !jsFalsy sec then
          acc ++ (jsEntries sec).map (fun kv =>
            JVal.obj [("subject", .str (underscoreToSpace kv.1)),
                      ("A", .num (match kv.2 with | .num n => n | _ => 0)),
                      ("fullMark", .num 100)])
        else acc
      | none => acc) []
    let barData :=
      if jsTruthy (jsLookup data "metadados_calculo") &&
         jsTruthy (jsChain (jsLookup data "metadados_calculo") "escala_0_100") then
        (jsEntries ((jsChain (jsLookup data "metadados_calculo") "escala_0_100").getD .null)).map
          (fun kv => JVal.obj [("name", .str kv.1),
                               ("value", .num (match kv.2 with | .num n => n | _ => 0))])
      else []
    { radarData := radarData, barData := barData, isAiData := true }
  else
    let questionsJ :=
      if jsTruthy (jsLookup data "body") then jsLookup data "body"
      else if jsTruthy (jsLookup data "questions") then jsLookup data "questions"
      else if jsTruthy (jsChain (jsLookup data "payload") "body") then
        jsChain (jsLookup data "payload") "body"
      else none
    let questions : List JVal :=
      match questionsJ with
      | some (.arr es) => es
      | _ => []
    let st := questions.foldl scanQuestion ([], [])
    { radarData := st.1.map (fun p =>
        JVal.obj [("subject", .str (truncate20 p.1)),
                  ("fullSubject", .str p.1),
                  ("A", .str (toFixed1 p.2.1 p.2.2)),
                  ("fullMark", .num 5)]),
      barData := st.2.map (fun p => JVal.obj [("name", .str p.1), ("value", .num (p.2 : Int))]),
      isAiData := false }

/-! ## Candidate questionnaire runner (CandidateView)

Typed model of `types.ts` plus the runner's state and handlers.  Answers
are JS objects of two shapes: `{text, value}` (scale / single choice) and
`{most, least}` (most/least), modelled by `Answer`.  The `answers` record
keyed by question id is an association list with JS object-key semantics
(`setAnswer`). -/

/-- `QuestionOption` of `types.ts`. -/
structure QuestionOption where
  text : String
  value : String
deriving Repr, DecidableEq

/-- Question type tag: `scale` 1–5 or multiple `choice`. -/
inductive QType where
  | scale
  | choice
deriving Repr, DecidableEq

/-- Choice variation tag: one answer, or most/least trait picks. -/
inductive QVariation where
  | single
  | most_least
deriving Repr, DecidableEq

/-- `Question` of `types.ts`. -/
structure Question where
  id : String
  text : String
  category : Option String
  type : QType
  options : Option (List QuestionOption)
  variation : Option QVariation
deriving Repr, DecidableEq

/-- `Test` of `types.ts` as the runner holds it (questions already parsed). -/
structure Test where
  id : String
  title : String
  description : String
  questions : List Question
  active : Bool
deriving Repr, DecidableEq

/-- A recorded answer: `{text, value}` or `{most, least}`. -/
inductive Answer where
  | tv (text value : String)
  | ml (most least : Option QuestionOption)
deriving Repr, DecidableEq

/-- `answers[qid]` (undefined if never answered). -/
def getAnswer (m : List (String × Answer)) (k : String) : Option Answer :=
  (m.find? (fun p => p.1 = k)).map (fun p => p.2)

/-- `{...prev, [qid]: a}` with JS object-key semantics: an existing key is
updated in place, a new key is appended. -/
def setAnswer (m : List (String × Answer)) (k : String) (a : Answer) :
    List (String × Answer) :=
  if m.any (fun p => p.1 = k) then
    m.map (fun p => if p.1 = k then (k, a) else p)
  else m ++ [(k, a)]

/-- `ans.most` (undefined on the other answer shape or a missing answer). -/
def ansMost : Option Answer → Option QuestionOption
  | some (.ml mo _) => mo
  | _ => none

/-- `ans.least`. -/
def ansLeast : Option Answer → Option QuestionOption
  | some (.ml _ le) => le
  | _ => none

/-- Model of `handleScaleAnswer`: records `{text: val, value: val}` as
decimal strings. -/
def handleScaleAnswer (m : List (String × Answer)) (qid : String) (val : Nat) :
    List (String × Answer) :=
  setAnswer m qid (.tv (toString val) (toString val))

/-- Model of `handleSingleChoice`: records the chosen option's text/value. -/
def handleSingleChoice (m : List (String × Answer)) (qid : String) (opt : QuestionOption) :
    List (String × Answer) :=
  setAnswer m qid (.tv opt.text opt.value)

/-- Which side of a most/least pick is being set. -/
inductive MLKind where
  | most
  | least
deriving Repr, DecidableEq

/-- Model of `handleMostLeast`: set the chosen side to `opt`; if the other
side currently holds an option with the same text, clear it. -/
def handleMostLeast (m : List (String × Answer)) (qid : String) (kind : MLKind)
    (opt : QuestionOption) : List (String × Answer) :=
  let cur := getAnswer m qid
  let curMost := ansMost cur
  let curLeast := ansLeast cur
  match kind with
  | .most =>
    let newLeast :=
      match curLeast with
      | some o => if o.text = opt.text then none else some o
      | none => none
    setAnswer m qid (.ml (some opt) newLeast)
  | .least =>
    let newMost :=
      match curMost with
      | some o => if o.text = opt.text then none else some o
      | none => none
    setAnswer m qid (.ml newMost (some opt))

/-- Model of `canProceed`: no test or no recorded answer is `false`; a scale
question accepts any recorded answer; `most_least` requires both picks
present with different texts; any other choice requires truthy `ans.text`
(the empty string is falsy).  An out-of-range step would throw in JS and is
mapped to `false`. -/
def canProceed (test : Option Test) (currentStep : Nat)
    (answers : List (String × Answer)) : Bool :=
  match test with
  | none => false
  | some t =>
    match t.questions.get? currentStep with
    | none => false
    | some q =>
      match getAnswer answers q.id with
      | none => false
      | some ans =>
        match q.type with
        | .scale => true
        | .choice =>
          if q.variation = some .most_least then
            match ans with
            | .ml (some mo) (some le) => mo.text ≠ le.text
            | _ => false
          else
            match ans with
            | .tv text _ => text ≠ ""
            | .ml _ _ => false

/-! ## Submission (`submitTest`)

`submitTest` is modelled as a pure function of: the latch value before the
call (`hasSubmittedRef.current`), the loaded test and answers, and two
oracles for the outcomes of the external calls — `webhookOk` (the `fetch`
to the n8n webhook resolves) and `updateOk` (the `profiles` update
succeeds).  The returned `SubmitOutcome` carries the post-call state and
the observable effects: the webhook payload actually POSTed (if any) and
the profile update actually issued (if any). -/

/-- One entry of the webhook `body` array: the question's own fields plus
the `resposta` field. -/
structure PayloadEntry where
  id : String
  text : String
  category : Option String
  type : QType
  options : Option (List QuestionOption)
  variation : Option QVariation
  resposta : Option Answer
deriving Repr, DecidableEq

/-- The `finalPayload` object POSTed to the webhook. -/
structure Payload where
  test_id : String
  test_title : String
  test_description : String
  candidate_id : String
  candidate_email : String
  body : List PayloadEntry
deriving Repr, DecidableEq

/-- Build one `body` entry for question `q` (the `test.questions.map`
callback).  A `most_least` question with no recorded answer throws in JS
(`userAnswer.most` on `undefined`), modelled by `Except.error`. -/
def buildEntry (answers : List (String × Answer)) (q : Question) :
    Except String PayloadEntry :=
  let userAnswer := getAnswer answers q.id
  let base : PayloadEntry :=
    { id := q.id, text := q.text, category := q.category, type := q.type,
      options := q.options, variation := q.variation, resposta := none }
  match q.type with
  | .scale => .ok { base with resposta := userAnswer }
  | .choice =>
    if q.variation = some .most_least then
      match userAnswer with
      | none => .error "TypeError: cannot read properties of undefined"
      | some a => .ok { base with resposta := some (.ml (ansMost (some a)) (ansLeast (some a))) }
    else .ok { base with resposta := userAnswer }

/-- The runner state affected by `submitTest`, plus its external effects. -/
structure SubmitOutcome where
  hasSubmitted : Bool
  isSubmitting : Bool
  isCompleted : Bool
  errorSet : Option String
  webhook : Option Payload
  profileUpdate : Option (String × String × String)
deriving Repr, DecidableEq

/-- The error exit of `submitTest`'s `catch` block: report the message,
release the latch so the candidate can retry, clear the spinner. -/
def submitErrorOutcome (msg : String) (webhook : Option Payload)
    (profileUpdate : Option (String × String × String)) : SubmitOutcome :=
  { hasSubmitted := false, isSubmitting := false, isCompleted := false,
    errorSet := some ("Erro ao finalizar: " ++ msg),
    webhook := webhook, profileUpdate := profileUpdate }

/-- Model of `submitTest`.  Steps in source order: (1) strict lock — if the
latch is already set, return with no state change and no effect; otherwise
set it; (2) build the payload from all questions; throw if the test is
missing or the body is empty; (3) POST to the webhook — a rejected fetch
throws, and the `catch` releases the latch; (4) only then update the
profile row to `completed` with today's date; (5) on success keep the
latch set and mark completion. -/
def submitTest (latch0 : Bool) (test : Option Test) (answers : List (String × Answer))
    (candidateId candidateEmail : String) (webhookOk updateOk : Bool)
    (today : String) : SubmitOutcome :=
  if latch0 then
    { hasSubmitted := true, isSubmitting := false, isCompleted := false,
      errorSet := none, webhook := none, profileUpdate := none }
  else
    match test with
    | none => submitErrorOutcome "Teste não encontrado" none none
    | some t =>
      match t.questions.mapM (buildEntry answers) with
      | .error m => submitErrorOutcome m none none
      | .ok body =>
        if body.length = 0 then
          submitErrorOutcome "Erro: O teste parece estar vazio. Tente recarregar." none none
        else
          let payload : Payload :=
            { test_id := t.id, test_title := t.title, test_description := t.description,
              candidate_id := candidateId, candidate_email := candidateEmail, body := body }
          if !webhookOk then
            submitErrorOutcome "Falha de conexão ao enviar respostas. Tente novamente."
              (some payload) none
          else if !updateOk then
            submitErrorOutcome "Erro ao atualizar o perfil" (some payload)
              (some (candidateId, "completed", today))
          else
            { hasSubmitted := true, isSubmitting := false, isCompleted := true,
              errorSet := none, webhook := some payload,
              profileUpdate := some (candidateId, "completed", today) }

/-! ## Session loading (`loadSession`) -/

/-- A `profiles` row as stored in the backend. -/
structure ProfileRow where
  id : String
  name : String
  email : Option String
  role : String
  status : String
  assigned_test_id : Option String
  score : Option Int
  completed_date : Option String
deriving Repr, DecidableEq

/-- A `tests` row as stored in the backend: `questions` may be either
JSON text or an already-structured value. -/
structure TestRow where
  id : String
  title : String
  description : String
  active : Bool
  questions : JVal
deriving Repr

/-- Where `loadSession` lands the candidate. -/
inductive LoadResult where
  | loadError (msg : String)
  | alreadyTaken (name email : String)
  | noTestAssigned
  | testInactive
  | ready (name email : String) (test : TestRow) (questions : JVal)
deriving Repr

/-- Model of `loadSession`: fetch the profile (a failed fetch is caught as a
load error); a `completed` or `in-progress` status short-circuits to the
"already taken" screen; a missing assignment or an inactive test each stop
with their message; otherwise string-typed `questions` go through
`JSON.parse` (a parse throw is caught as a load error). -/
def loadSession (profileRes : Except String ProfileRow)
    (testFetch : String → Except String TestRow) : LoadResult :=
  match profileRes with
  | .error m => .loadError ("Erro ao carregar sessão: " ++ m)
  | .ok profile =>
    let name := profile.name
    let email := profile.email.getD ""
    if profile.status = "completed" || profile.status = "in-progress" then
      .alreadyTaken name email
    else
      match profile.assigned_test_id with
      | none => .noTestAssigned
      | some tid =>
        match testFetch tid with
        | .error m => .loadError ("Erro ao carregar sessão: " ++ m)
        | .ok testData =>
          if !testData.active then .testInactive
          else
            match testData.questions with
            | .str qs =>
              match jsonParse qs with
              | some qv => .ready name email testData qv
              | none => .loadError ("Erro ao carregar sessão: SyntaxError")
            | qv => .ready name email testData qv

/-! ## Profile-store operations

Every mutation of the `profiles` table issued anywhere in this code:
account sign-up (an insert, performed by the backend on `auth.signUp`),
the admin candidate edit (`handleSave` with `editingId`,
CandidatesList.tsx), and the candidate submission status flip
(`submitTest`).  No operation deletes a row. -/

/-- The column payload of the `profiles` update issued by `handleSave` when
`editingId` is set: exactly `name` and `assigned_test_id`
(`formData.testId || null`). -/
structure AdminEditPayload where
  name : String
  assigned_test_id : Option String
deriving Repr, DecidableEq

/-- The update object built by `handleSave` from the form fields. -/
def handleSaveEdit (formName formTestId : String) : AdminEditPayload :=
  { name := formName,
    assigned_test_id := if formTestId = "" then none else some formTestId }

/-- Apply the admin edit to one row (`.eq('id', editingId)` row filter). -/
def applyAdminEdit (editId : String) (u : AdminEditPayload) (p : ProfileRow) : ProfileRow :=
  if p.id = editId then
    { p with name := u.name, assigned_test_id := u.assigned_test_id }
  else p

/-- Apply `submitTest`'s profile update to one row. -/
def completeRow (cid today : String) (p : ProfileRow) : ProfileRow :=
  if p.id = cid then { p with status := "completed", completed_date := some today } else p

/-- The profile-table operations present in this codebase. -/
inductive ProfileOp where
  | signUp (p : ProfileRow)
  | adminEdit (editId formName formTestId : String)
  | completeSubmission (cid today : String)

/-- Effect of each operation on the stored `profiles` rows. -/
def applyProfileOp : ProfileOp → List ProfileRow → List ProfileRow
  | .signUp p, store => p :: store
  | .adminEdit i n t, store => store.map (applyAdminEdit i (handleSaveEdit n t))
  | .completeSubmission c d, store => store.map (completeRow c d)

/-! ## Claim theorems -/

/-- C3: applying `safeParseJSON` to the string encoding of the string
encoding of a value (a string containing a string containing the object)
yields the same object as applying `safeParseJSON` to the string encoding
directly; more generally any finite depth of string encoding unwraps to
the same result (`encTower n`). -/
theorem claim_C3_safeParseJSON_unwraps_double_encoding (n : Nat) (v : JVal) :
    safeParseJSON (.str (encTower n v)) = safeParseJSON (.str (jsonStringify v)) := by
  induction n with
  | zero => rfl
  | succ n ih =>
    have h : encTower (n + 1) v = jsonStringify (.str (encTower n v)) := rfl
    rw [h, safeParseJSON_parse_str (jsonParse_stringify_str _)]
    exact ih

/-- C10: `safeParseJSON` terminates on every input — its definition is
accepted by well-founded recursion on the decreasing measure of the first
conjunct (a parse of a string producing another string strictly shrinks
it) — and its result is never a string: it is a parsed non-string value,
the non-null object (or array) input itself, a primitive, or the empty
object on parse failure. -/
theorem claim_C10_safeParseJSON_total_never_string :
    (∀ s t : String, jsonParse s = some (.str t) → t.length < s.length) ∧
    (∀ v : JVal, isStr (safeParseJSON v) = false) :=
  ⟨fun s t h => jsonParse_str_length s t h, safeParseJSON_isStr_false⟩

/-- Witness for C10 at a concrete shrinking parse and a concrete input. -/
theorem claim_C10_witness :
    ("x".length < "\"x\"".length) ∧ isStr (safeParseJSON (.str "nope")) = false :=
  ⟨claim_C10_safeParseJSON_total_never_string.1 "\"x\"" "x" rfl,
   claim_C10_safeParseJSON_total_never_string.2 (.str "nope")⟩

/-- C4: a payload string that is not valid JSON becomes the empty object
rather than raising, and the chart derivation for any result row holding
such a payload yields a radar series with zero entries. -/
theorem claim_C4_malformed_payload_empty_radar (s id ca ti ci : String)
    (h : jsonParse s = none) :
    safeParseJSON (.str s) = .obj [] ∧
    (calculateChartData ⟨id, ca, ti, ci, safeParseJSON (.str s)⟩).radarData = [] := by
  have h1 : safeParseJSON (.str s) = .obj [] := safeParseJSON_parse_fail h
  refine ⟨h1, ?_⟩
  rw [h1]
  rfl

/-- Witness for C4 at a concrete malformed payload. -/
theorem claim_C4_witness :
    safeParseJSON (.str "not valid json") = .obj [] ∧
    (calculateChartData ⟨"r1", "2024-01-01", "t1", "c1",
        safeParseJSON (.str "not valid json")⟩).radarData = [] :=
  claim_C4_malformed_payload_empty_radar "not valid json" "r1" "2024-01-01" "t1" "c1" rfl

/-- C5: a profile whose status is `completed` or `in-progress` is routed to
the "already taken" terminal screen, whatever its test assignment is and
whatever any test fetch would return — the assignment and active checks can
never influence the outcome. -/
theorem claim_C5_already_taken_short_circuit
    (p : ProfileRow) (tf : String → Except String TestRow)
    (h : p.status = "completed" ∨ p.status = "in-progress") :
    loadSession (.ok p) tf = .alreadyTaken p.name (p.email.getD "") := by
  simp only [loadSession]
  rcases h with h | h <;> rw [h] <;> simp

/-- Witness for C5: a completed profile with an assigned test whose fetch
would fail still lands on the "already taken" screen. -/
theorem claim_C5_witness :
    loadSession
      (.ok { id := "p1", name := "Ana", email := none, role := "candidate",
             status := "completed", assigned_test_id := some "t9", score := none,
             completed_date := none })
      (fun _ => .error "network down") = .alreadyTaken "Ana" "" :=
  claim_C5_already_taken_short_circuit _ _ (Or.inl rfl)

/-- The completion requirement on a recorded answer, as the specification
words it (spec-side definition, compared against `canProceed`): a scale
question needs only a recorded answer; a most/least question needs both
picks with different texts; any other choice question needs a selected
option with non-empty text. -/
def answerMeetsRequirement (q : Question) (a : Answer) : Prop :=
  match q.type with
  | .scale => True
  | .choice =>
    if q.variation = some .most_least then
      ∃ mo le, a = .ml (some mo) (some le) ∧ mo.text ≠ le.text
    else ∃ text v, a = .tv text v ∧ text ≠ ""

/-- C6: `canProceed` is `true` exactly when the test is loaded, the current
question exists, some answer is recorded for it, and that answer meets the
question type's requirement; in every other case it is `false`. -/
theorem claim_C6_canProceed_exact (test : Option Test) (step : Nat)
    (answers : List (String × Answer)) :
    canProceed test step answers = true ↔
      ∃ t, test = some t ∧ ∃ q, t.questions.get? step = some q ∧
        ∃ a, getAnswer answers q.id = some a ∧ answerMeetsRequirement q a := by
  cases test with
  | none => simp [canProceed]
  | some t =>
    simp only [canProceed, Option.some.injEq, exists_eq_left']
    cases hq : t.questions.get? step with
    | none => simp
    | some q =>
      simp only [Option.some.injEq, exists_eq_left']
      cases ha : getAnswer answers q.id with
      | none => simp
      | some a =>
        simp only [Option.some.injEq, exists_eq_left']
        cases htype : q.type with
        | scale => simp [answerMeetsRequirement, htype]
        | choice =>
          by_cases hvar : q.variation = some .most_least
          · simp only [answerMeetsRequirement, htype, if_pos hvar]
            cases a with
            | tv text v => simp
            | ml mo le =>
              cases mo with
              | none => simp
              | some o1 =>
                cases le with
                | none => simp
                | some o2 =>
                  simp only [decide_eq_true_eq, Answer.ml.injEq, Option.some.injEq]
                  constructor
                  · intro hne
                    exact ⟨o1, o2, ⟨rfl, rfl⟩, hne⟩
                  · rintro ⟨mo, le, ⟨rfl, rfl⟩, hne⟩
                    exact hne
          · simp only [answerMeetsRequirement, htype, if_neg hvar]
            cases a with
            | tv text v => simp
            | ml mo le => simp

/-- Updating an existing key in place and reading it back gives the new
value. -/
theorem getAnswer_map_update (m : List (String × Answer)) (k : String) (a : Answer)
    (h : m.any (fun p => p.1 = k) = true) :
    getAnswer (m.map (fun p => if p.1 = k then (k, a) else p)) k = some a := by
  induction m with
  | nil => simp at h
  | cons p m ih =>
    by_cases hp : p.1 = k
    · simp [getAnswer, List.find?_cons, hp]
    · have h' : m.any (fun p => p.1 = k) = true := by
        simp only [List.any_cons, Bool.or_eq_true, decide_eq_true_eq] at h
        rcases h with h | h
        · exact absurd h hp
        · exact h
      have ihm := ih h'
      simp only [List.map_cons, if_neg hp, getAnswer, List.find?_cons] at ihm ⊢
      rw [decide_eq_false hp]
      exact ihm

/-- Appending a fresh key and reading it back gives the new value. -/
theorem getAnswer_append_new (m : List (String × Answer)) (k : String) (a : Answer)
    (h : m.any (fun p => p.1 = k) = false) :
    getAnswer (m ++ [(k, a)]) k = some a := by
  induction m with
  | nil => simp [getAnswer, List.find?_cons]
  | cons p m ih =>
    simp only [List.any_cons, Bool.or_eq_false_iff, decide_eq_false_iff_not] at h
    have ihm := ih h.2
    simp only [List.cons_append, getAnswer, List.find?_cons] at ihm ⊢
    rw [decide_eq_false h.1]
    exact ihm

/-- `answers[qid]` after `setAnswer answers qid a` is `a`. -/
theorem getAnswer_setAnswer (m : List (String × Answer)) (k : String) (a : Answer) :
    getAnswer (setAnswer m k a) k = some a := by
  by_cases h : m.any (fun p => p.1 = k)
  · rw [setAnswer, if_pos h]
    exact getAnswer_map_update m k a h
  · rw [setAnswer, if_neg h]
    exact getAnswer_append_new m k a (by rwa [Bool.not_eq_true] at h)

/-- The most/least invariant on a stored answer: a `{most, least}` shape
never carries two options with the same text (other shapes and absent
sides hold it vacuously). -/
def mlDistinct : Answer → Prop
  | .ml (some mo) (some le) => mo.text ≠ le.text
  | _ => True

/-- C7: after every `handleMostLeast` invocation — from any prior answers
state — the stored answer for the question either has a side undefined or
carries two options with different texts: choosing as `most` the current
`least` clears `least`, and symmetrically. -/
theorem claim_C7_handleMostLeast_invariant (m : List (String × Answer)) (qid : String)
    (kind : MLKind) (opt : QuestionOption) :
    ∃ a, getAnswer (handleMostLeast m qid kind opt) qid = some a ∧ mlDistinct a := by
  cases kind with
  | most =>
    refine ⟨_, getAnswer_setAnswer m qid _, ?_⟩
    cases hcl : ansLeast (getAnswer m qid) with
    | none => simp [hcl, mlDistinct]
    | some o =>
      by_cases htext : o.text = opt.text
      · simp [hcl, htext, mlDistinct]
      · simp only [hcl, if_neg htext, mlDistinct]
        intro hx
        exact htext hx.symm
  | least =>
    refine ⟨_, getAnswer_setAnswer m qid _, ?_⟩
    cases hcm : ansMost (getAnswer m qid) with
    | none => simp [hcm, mlDistinct]
    | some o =>
      by_cases htext : o.text = opt.text
      · simp [hcm, htext, mlDistinct]
      · simp only [hcm, if_neg htext, mlDistinct]
        exact htext

/-- The body entry the specification describes: the question's `id`,
`text`, `category`, `type`, `options` and `variation`, plus `resposta`
equal to the recorded answer — for a most/least question, its
`{most, least}` pair. -/
def specEntry (answers : List (String × Answer)) (q : Question) : PayloadEntry :=
  { id := q.id, text := q.text, category := q.category, type := q.type,
    options := q.options, variation := q.variation,
    resposta :=
      if q.type = .choice ∧ q.variation = some .most_least then
        (getAnswer answers q.id).map (fun a => .ml (ansMost (some a)) (ansLeast (some a)))
      else getAnswer answers q.id }

/-- With an answer recorded, `buildEntry` succeeds with the spec's entry. -/
theorem buildEntry_complete (answers : List (String × Answer)) (q : Question)
    (h : (getAnswer answers q.id).isSome) :
    buildEntry answers q = .ok (specEntry answers q) := by
  obtain ⟨a, ha⟩ := Option.isSome_iff_exists.mp h
  cases htype : q.type with
  | scale => simp [buildEntry, specEntry, htype]
  | choice =>
    by_cases hvar : q.variation = some .most_least
    · simp [buildEntry, specEntry, htype, hvar, ha]
    · simp [buildEntry, specEntry, htype, hvar, ha]

/-- With every question answered, the whole body builds in question order. -/
theorem mapM_buildEntry_complete (answers : List (String × Answer)) :
    ∀ qs : List Question, (∀ q ∈ qs, (getAnswer answers q.id).isSome) →
      qs.mapM (buildEntry answers) = .ok (qs.map (specEntry answers)) := by
  intro qs h
  induction qs with
  | nil => rfl
  | cons q qs ih =>
    rw [List.mapM_cons, buildEntry_complete answers q (h q (List.mem_cons_self q qs)),
        ih (fun q' hq' => h q' (List.mem_cons_of_mem _ hq'))]
    rfl

/-- C8: with a non-empty question list and a complete answer map, the
webhook payload has one body entry per question, in question order, each
carrying the question's fields and its recorded answer; with an empty
question list `submitTest` raises instead of sending. -/
theorem claim_C8_payload_shape (t : Test) (answers : List (String × Answer))
    (cid cemail today : String) (webhookOk updateOk : Bool)
    (hcomplete : ∀ q ∈ t.questions, (getAnswer answers q.id).isSome) :
    (t.questions ≠ [] →
      (submitTest false (some t) answers cid cemail webhookOk updateOk today).webhook =
        some { test_id := t.id, test_title := t.title, test_description := t.description,
               candidate_id := cid, candidate_email := cemail,
               body := t.questions.map (specEntry answers) }) ∧
    (t.questions = [] →
      (submitTest false (some t) answers cid cemail webhookOk updateOk today).webhook = none ∧
      ((submitTest false (some t) answers cid cemail webhookOk updateOk today).errorSet).isSome) := by
  have hm := mapM_buildEntry_complete answers t.questions hcomplete
  constructor
  · intro hne
    have hlen : ¬ (t.questions.map (specEntry answers)).length = 0 := by
      intro h0
      exact hne (List.map_eq_nil_iff.mp (List.eq_nil_of_length_eq_zero h0) ▸ rfl)
    simp only [submitTest, hm, Bool.false_eq_true, if_false]
    rw [if_neg hlen]
    cases webhookOk <;> cases updateOk <;> simp [submitErrorOutcome]
  · intro hnil
    have hlen : (t.questions.map (specEntry answers)).length = 0 := by simp [hnil]
    simp only [submitTest, hm, Bool.false_eq_true, if_false]
    rw [if_pos hlen]
    simp [submitErrorOutcome]

/-- C1: the profile update is gated by the webhook delivery — whenever an
update is issued, the webhook was POSTed and its delivery succeeded, and
the update sets status `completed` with today's date; whenever the webhook
delivery fails, no profile update is issued at all (the row is left
unmodified). -/
theorem claim_C1_webhook_gates_profile_update (latch0 : Bool) (test : Option Test)
    (answers : List (String × Answer)) (cid cemail today : String)
    (webhookOk updateOk : Bool) :
    ((submitTest latch0 test answers cid cemail webhookOk updateOk today).profileUpdate.isSome →
      (submitTest latch0 test answers cid cemail webhookOk updateOk today).webhook.isSome ∧
      webhookOk = true ∧
      (submitTest latch0 test answers cid cemail webhookOk updateOk today).profileUpdate =
        some (cid, "completed", today)) ∧
    (webhookOk = false →
      (submitTest latch0 test answers cid cemail webhookOk updateOk today).profileUpdate = none) := by
  cases latch0 with
  | true => simp [submitTest]
  | false =>
    cases test with
    | none => simp [submitTest, submitErrorOutcome]
    | some t =>
      simp only [submitTest, Bool.false_eq_true, if_false]
      cases hm : t.questions.mapM (buildEntry answers) with
      | error m => simp [submitErrorOutcome]
      | ok body =>
        by_cases hb : body.length = 0
        · simp [hb, submitErrorOutcome]
        · cases webhookOk <;> cases updateOk <;> simp [hb, submitErrorOutcome]

/-- C2: with the latch already set, `submitTest` returns at once — no
webhook POST, no profile update, no state change; with the latch clear,
the latch ends released exactly when the run set an error, so a successful
submission never releases it and a failed one allows one retry. -/
theorem claim_C2_one_shot_latch (test : Option Test) (answers : List (String × Answer))
    (cid cemail today : String) (webhookOk updateOk : Bool) :
    (submitTest true test answers cid cemail webhookOk updateOk today =
      { hasSubmitted := true, isSubmitting := false, isCompleted := false,
        errorSet := none, webhook := none, profileUpdate := none }) ∧
    ((submitTest false test answers cid cemail webhookOk updateOk today).hasSubmitted = false ↔
      ((submitTest false test answers cid cemail webhookOk updateOk today).errorSet).isSome) := by
  constructor
  · simp [submitTest]
  · cases test with
    | none => simp [submitTest, submitErrorOutcome]
    | some t =>
      simp only [submitTest, Bool.false_eq_true, if_false]
      cases hm : t.questions.mapM (buildEntry answers) with
      | error m => simp [submitErrorOutcome]
      | ok body =>
        by_cases hb : body.length = 0
        · simp [hb, submitErrorOutcome]
        · cases webhookOk <;> cases updateOk <;> simp [hb, submitErrorOutcome]

/-- C9: the admin candidate edit (`handleSave` with `editingId`) rewrites
only `name` and `assigned_test_id` — `email`, `status`, `score` and
`completed_date` survive on every row, and the edited row takes exactly
the form values — and no profile-table operation in this code deletes a
row: every stored profile id survives every operation. -/
theorem claim_C9_admin_edit_frame_no_delete :
    (∀ (editId formName formTestId : String) (p : ProfileRow),
      (applyAdminEdit editId (handleSaveEdit formName formTestId) p).id = p.id ∧
      (applyAdminEdit editId (handleSaveEdit formName formTestId) p).email = p.email ∧
      (applyAdminEdit editId (handleSaveEdit formName formTestId) p).status = p.status ∧
      (applyAdminEdit editId (handleSaveEdit formName formTestId) p).score = p.score ∧
      (applyAdminEdit editId (handleSaveEdit formName formTestId) p).completed_date =
        p.completed_date ∧
      (p.id = editId →
        (applyAdminEdit editId (handleSaveEdit formName formTestId) p).name = formName ∧
        (applyAdminEdit editId (handleSaveEdit formName formTestId) p).assigned_test_id =
          (if formTestId = "" then none else some formTestId))) ∧
    (∀ (op : ProfileOp) (store : List ProfileRow) (p : ProfileRow), p ∈ store →
      ∃ p', p' ∈ applyProfileOp op store ∧ p'.id = p.id) := by
  constructor
  · intro i n t p
    by_cases hp : p.id = i
    · simp [applyAdminEdit, handleSaveEdit, hp]
    · simp [applyAdminEdit, handleSaveEdit, hp]
  · intro op store p hp
    cases op with
    | signUp q => exact ⟨p, List.mem_cons_of_mem _ hp, rfl⟩
    | adminEdit i n t =>
      refine ⟨applyAdminEdit i (handleSaveEdit n t) p, List.mem_map_of_mem _ hp, ?_⟩
      by_cases hpi : p.id = i <;> simp [applyAdminEdit, hpi]
    | completeSubmission c d =>
      refine ⟨completeRow c d p, List.mem_map_of_mem _ hp, ?_⟩
      by_cases hpi : p.id = c <;> simp [completeRow, hpi]

/-- The spec's example test T1: a scale question and a single-choice
question. -/
def t1Test : Test :=
  { id := "T1", title := "Teste T1", description := "Exemplo",
    questions :=
      [{ id := "q1", text := "Pergunta 1", category := some "Comunicação",
         type := .scale, options := none, variation := none },
       { id := "q2", text := "Pergunta 2", category := some "Perfil",
         type := .choice,
         options := some [{ text := "Option A", value := "A" },
                          { text := "Option B", value := "B" }],
         variation := some .single }],
    active := true }

/-- The spec example's answers `{q1: 4, q2: "Option B"}` as recorded by the
handlers. -/
def t1Answers : List (String × Answer) :=
  [("q1", .tv "4" "4"), ("q2", .tv "Option B" "B")]

/-- Witness for C8 at the spec's example: two body entries, in order,
carrying the recorded answers. -/
theorem claim_C8_witness :
    (submitTest false (some t1Test) t1Answers "c1" "c1@save.co" true true
        "2024-05-01").webhook =
      some { test_id := "T1", test_title := "Teste T1", test_description := "Exemplo",
             candidate_id := "c1", candidate_email := "c1@save.co",
             body :=
               [{ id := "q1", text := "Pergunta 1", category := some "Comunicação",
                  type := .scale, options := none, variation := none,
                  resposta := some (.tv "4" "4") },
                { id := "q2", text := "Pergunta 2", category := some "Perfil",
                  type := .choice,
                  options := some [{ text := "Option A", value := "A" },
                                   { text := "Option B", value := "B" }],
                  variation := some .single,
                  resposta := some (.tv "Option B" "B") }] } :=
  (claim_C8_payload_shape t1Test t1Answers "c1" "c1@save.co" "2024-05-01" true true
    (by decide)).1 (by decide)

/-- Witness for C1: a failed webhook delivery issues no profile update. -/
theorem claim_C1_witness :
    (submitTest false (some t1Test) t1Answers "c1" "c1@save.co" false true
        "2024-05-01").profileUpdate = none :=
  (claim_C1_webhook_gates_profile_update false (some t1Test) t1Answers "c1" "c1@save.co"
    "2024-05-01" false true).2 rfl

/-- A concrete stored profile used by the C9 witness. -/
def storedProfile : ProfileRow :=
  { id := "p1", name := "Bruno", email := some "b@save.co", role := "candidate",
    status := "pending", assigned_test_id := none, score := none, completed_date := none }

/-- Witness for C9: the row survives a concrete admin edit. -/
theorem claim_C9_witness :
    ∃ p', p' ∈ applyProfileOp (.adminEdit "p1" "Bruno Lima" "T1") [storedProfile] ∧
      p'.id = storedProfile.id :=
  claim_C9_admin_edit_frame_no_delete.2 (.adminEdit "p1" "Bruno Lima" "T1")
    [storedProfile] storedProfile (by decide)
